import Mathlib

/-!
Shallow embedding of the USBasp-for-parallel-programming firmware's
programming engine (src/software/firmware/isp.c together with the USB
command dispatch found in the same translation unit).

Hardware is observed through an explicit trace of bus events: every
register/address load, serial exchange, strobe and pulse performed by the
C code appends one event.  Machine integers are `Nat` with explicit
`% 2^w` where the C type's width matters (uchar = `% 256`,
unsigned int = `% 65536`, unsigned long = `% 4294967296`).  Target
responses (DATA_PIN samples, serial read-back) are modelled as oracle
parameters, since they come from the physical chip.
-/

/-- One observable bus/hardware action of the transport layer.
Each constructor corresponds to a concrete pin sequence in isp.c:
`loadComm` = avr_loadComm (XA=01, data bus, XT1 pulse);
`loadAdd` = avr_loadAdd; `serialX` = avr_serialExchange (11-bit frame);
`pulseData` = driving DATA_PORT and pulsing XT1 inline (write-flash word
path); `pagelStrobe` = PAGEL high/low pulse; `extLoad` = the extended
address register load in ispUpdateExtended; `dataRead` = OE strobe and
DATA_PIN capture; `wrStrobe` = WR low/high commit pulse; `fuseSel` = the
BS1/BS2/XA1 line combination selecting a fuse kind in avr_getFuse;
`busyPoll` = avr_bsySerial's RDY/BSY wait; `avrReset` = avr_reset (VPP
cycle); `flushPage` marks one call of ispFlushPage (its inner actions
follow it in the trace); `linesOn`/`linesOff` = ispConnect/ispDisconnect
pin setup/teardown; `tpiRead`/`tpiWrite` = the delegated external TPI
block operations. -/
inductive Ev : Type
  | loadComm (c : Nat)
  | loadAdd (a : Nat) (hilo : Nat)
  | serialX (instr : Nat) (d : Nat)
  | pulseData (b : Nat)
  | pagelStrobe
  | extLoad (seg : Nat)
  | dataRead
  | wrStrobe
  | fuseSel (bt : Nat)
  | busyPoll
  | avrReset
  | flushPage (a : Nat)
  | linesOn
  | linesOff
  | tpiRead (a n : Nat)
  | tpiWrite (a n : Nat)
deriving DecidableEq, Repr

/-- The isp.c file-scope mutable variables relevant to the claims:
`dev_type` (detection result, 0 = full bus, 1 = short bus, 2 = serial HV),
`prog_pagesize` / `prog_pagecounter` (the isp.c globals used by the
auto-flush check inside parallel/serialWriteFlash), `low_byte` (buffered
low byte of a flash word), `isp_hiaddr` (cached extended address
segment). -/
structure IspState : Type where
  dev_type : Nat
  prog_pagesize : Nat
  prog_pagecounter : Nat
  low_byte : Nat
  isp_hiaddr : Nat
deriving DecidableEq, Repr

/-- Result of an access-layer call: C return value, updated globals,
emitted bus trace. -/
structure IspRes : Type where
  ret : Nat
  st : IspState
  tr : List Ev
deriving DecidableEq, Repr

/-- avr_loadComm: loads an instruction byte; the body is guarded by
`dev_type == 0x00 || dev_type == 0x01` and does nothing in serial mode. -/
def avr_loadComm (s : IspState) (c : Nat) : List Ev :=
  if s.dev_type = 0 ∨ s.dev_type = 1 then [Ev.loadComm (c % 256)] else []

/-- avr_loadAdd: loads one address byte (hi_lo selects BS1); guarded by
the same parallel-mode test as avr_loadComm. The `uchar add` parameter
truncates the argument to 8 bits. -/
def avr_loadAdd (s : IspState) (a : Nat) (hilo : Nat) : List Ev :=
  if s.dev_type = 0 ∨ s.dev_type = 1 then [Ev.loadAdd (a % 256) hilo] else []

/-- avr_bsySerial: bounded RDY/BSY busy-wait; on reaching the 0xFFF
iteration bound it resets the target (avr_reset) and returns with no
error indication. `timedOut` abstracts whether the bound was hit (it
depends on the physical DATA_PIN line). -/
def avr_bsySerial (timedOut : Bool) : List Ev :=
  if timedOut then [Ev.busyPoll, Ev.avrReset] else [Ev.busyPoll]

/-- ispUpdateExtended: recompute the extended-address segment
(address bits 17 and up, `(address >> 17) & 0xFF`), compare it with the
cached `isp_hiaddr` by XOR, and only when different drive it onto the bus
(one XT1 pulse) and update the cache. -/
def ispUpdateExtended (s : IspState) (address : Nat) : IspState × List Ev :=
  let curr_hi := (address >>> 17) &&& 0xFF
  if s.isp_hiaddr ^^^ curr_hi = 0 then (s, [])
  else ({ s with isp_hiaddr := curr_hi }, [Ev.extLoad curr_hi])

/-- parallelReadFlash: load read-flash command 0x02, update the extended
segment, load high then low address byte, select word half by address
bit 0, strobe OE and capture DATA_PIN.  `penv` models the byte the
target drives for a given address. -/
def parallelReadFlash (penv : Nat → Nat) (s : IspState) (address : Nat) : IspRes :=
  let u := ispUpdateExtended s address
  ⟨penv address % 256, u.1,
    avr_loadComm s 0x02 ++ u.2 ++ avr_loadAdd u.1 (address >>> 9) 1 ++
      avr_loadAdd u.1 ((address >>> 1) &&& 0xFF) 0 ++ [Ev.dataRead]⟩

/-- serialReadFlash: the serial read-flash instruction/address/data
exchange sequence, selecting low or high byte by address bit 0. -/
def serialReadFlash (penv : Nat → Nat) (s : IspState) (address : Nat) : IspRes :=
  let head := [Ev.serialX 0x4C 0x02, Ev.serialX 0x0C ((address >>> 1) &&& 0xFF),
               Ev.serialX 0x1C ((address >>> 9) % 256), Ev.serialX 0x68 0x00]
  if address % 2 = 1 then
    ⟨penv address % 256, s, head ++ [Ev.serialX 0x78 0x00, Ev.serialX 0x7C 0x00]⟩
  else
    ⟨penv address % 256, s, head ++ [Ev.serialX 0x68 0x00, Ev.serialX 0x6C 0x00]⟩

/-- ispReadFlash: dispatch on dev_type between the parallel and serial
implementations. -/
def ispReadFlash (penv : Nat → Nat) (s : IspState) (address : Nat) : IspRes :=
  if s.dev_type = 0 ∨ s.dev_type = 1 then parallelReadFlash penv s address
  else serialReadFlash penv s address

/-- parallelWriteFlash: if the page counter has reached the page size,
load the Page Write command 0x10 and reset the counter; an even address
only buffers the byte in `low_byte` and increments the counter; an odd
address loads the word's low address byte, drives `low_byte` with one
XT1 pulse, drives the high byte with a second pulse, pulses PAGEL, and
increments the counter. -/
def parallelWriteFlash (s : IspState) (address d : Nat) (pollmode : Nat) : IspRes :=
  let pre : IspState × List Ev :=
    if s.prog_pagecounter ≥ s.prog_pagesize then
      ({ s with prog_pagecounter := 0 }, avr_loadComm s 0x10)
    else (s, [])
  let s1 := pre.1
  if address % 2 = 0 then
    ⟨0, { s1 with low_byte := d % 256,
                  prog_pagecounter := (s1.prog_pagecounter + 1) % 256 }, pre.2⟩
  else
    ⟨0, { s1 with prog_pagecounter := (s1.prog_pagecounter + 1) % 256 },
      pre.2 ++ avr_loadAdd s1 ((address >>> 1) &&& 0xFF) 0 ++
        [Ev.pulseData s1.low_byte, Ev.pulseData (d % 256), Ev.pagelStrobe]⟩

/-- serialWriteFlash: same buffering discipline as parallelWriteFlash;
the odd-address word write is the serial exchange sequence low-address,
low-data, high-data, then the two trailing 0x7D/0x7C dummy frames. -/
def serialWriteFlash (s : IspState) (address d : Nat) (pollmode : Nat) : IspRes :=
  let pre : IspState × List Ev :=
    if s.prog_pagecounter ≥ s.prog_pagesize then
      ({ s with prog_pagecounter := 0 }, [Ev.serialX 0x4C 0x10])
    else (s, [])
  let s1 := pre.1
  if address % 2 = 0 then
    ⟨0, { s1 with low_byte := d % 256,
                  prog_pagecounter := (s1.prog_pagecounter + 1) % 256 }, pre.2⟩
  else
    ⟨0, { s1 with prog_pagecounter := (s1.prog_pagecounter + 1) % 256 },
      pre.2 ++ [Ev.serialX 0x0C ((address >>> 1) &&& 0xFF),
                Ev.serialX 0x2C s1.low_byte, Ev.serialX 0x3C (d % 256),
                Ev.serialX 0x7D 0x00, Ev.serialX 0x7C 0x00]⟩

/-- ispWriteFlash: dispatch on dev_type. -/
def ispWriteFlash (s : IspState) (address d : Nat) (pollmode : Nat) : IspRes :=
  if s.dev_type = 0 ∨ s.dev_type = 1 then parallelWriteFlash s address d pollmode
  else serialWriteFlash s address d pollmode

/-- ispFlushPage: commit the loaded page.  Parallel: load the page's
high address byte, update the extended segment, pulse WR (the actual
commit), wait 8 ms, then load the No-Operation command 0x00 inline
(XA=01, data 0, XT1 pulse).  Serial: load the high address byte, the
0x64/0x6C commit exchanges, wait 8 ms, then load No-Operation.  The
`flushPage` marker records the call itself. -/
def ispFlushPage (s : IspState) (address : Nat) (pollvalue : Nat) : IspRes :=
  if s.dev_type = 0 ∨ s.dev_type = 1 then
    let u := ispUpdateExtended s address
    ⟨0, u.1, Ev.flushPage address ::
        (avr_loadAdd s (address >>> 9) 1 ++ u.2 ++ [Ev.wrStrobe, Ev.loadComm 0x00])⟩
  else
    ⟨0, s, [Ev.flushPage address, Ev.serialX 0x1C ((address >>> 9) % 256),
            Ev.serialX 0x64 0x00, Ev.serialX 0x6C 0x00, Ev.serialX 0x4C 0x00]⟩

/-- ispReadEEPROM: parallel mode loads command 0x03, two address-byte
loads, OE strobe and capture; serial mode is the read-EEPROM exchange
sequence.  `penv` models the byte the target returns. -/
def ispReadEEPROM (penv : Nat → Nat) (s : IspState) (address : Nat) : IspRes :=
  if s.dev_type = 0 ∨ s.dev_type = 1 then
    ⟨penv address % 256, s,
      avr_loadComm s 0x03 ++ avr_loadAdd s (address &&& 0xFF) 1 ++
        avr_loadAdd s (address &&& 0xFF) 0 ++ [Ev.dataRead]⟩
  else
    ⟨penv address % 256, s,
      [Ev.serialX 0x4C 0x03, Ev.serialX 0x0C (address &&& 0xFF),
       Ev.serialX 0x1C ((address >>> 8) % 256), Ev.serialX 0x68 0x00,
       Ev.serialX 0x6C 0x00]⟩

/-- ispWriteEEPROM: for dev_type 0 and 1 (the parallel-bus families) the
function returns 0 immediately with no bus activity; in serial mode it
performs the write-EEPROM exchange sequence followed by a busy poll.
`timedOut` abstracts whether that busy poll hits its bound. -/
def ispWriteEEPROM (s : IspState) (address d : Nat) (timedOut : Bool) : IspRes :=
  if s.dev_type = 0 ∨ s.dev_type = 1 then ⟨0, s, []⟩
  else
    ⟨0, s, [Ev.serialX 0x4C 0x11, Ev.serialX 0x0C (address &&& 0xFF),
            Ev.serialX 0x1C ((address >>> 8) % 256), Ev.serialX 0x2C (d % 256),
            Ev.serialX 0x6D 0x00, Ev.serialX 0x64 0x00, Ev.serialX 0x6C 0x00] ++
           avr_bsySerial timedOut⟩

/-- avr_getFuse: a kind above 3 is first replaced by `kind % 3`; the
parallel branch loads command 0x04, drives the kind's BS1/BS2/XA1 line
combination (`fuseSel`) and captures DATA_PIN; the serial branch issues
the kind's fixed instruction pair after the 0x4C/0x04 command exchange.
`fenv` models the byte the target returns for the selected kind. -/
def avr_getFuse (fenv : Nat → Nat) (s : IspState) (bt0 : Nat) : IspRes :=
  let bt := if bt0 > 3 then bt0 % 3 else bt0
  if s.dev_type = 0 ∨ s.dev_type = 1 then
    ⟨fenv bt % 256, s, avr_loadComm s 0x04 ++ [Ev.fuseSel bt, Ev.dataRead]⟩
  else
    let pair : Nat × Nat :=
      if bt = 1 then (0x68, 0x6C)
      else if bt = 0 then (0x7A, 0x7E)
      else if bt = 2 then (0x6A, 0x6E)
      else (0x78, 0x7C)
    ⟨fenv bt % 256, s,
      [Ev.serialX 0x4C 0x04, Ev.serialX pair.1 0x00, Ev.serialX pair.2 0x00]⟩

/-- ispConnect: drives the control port, powers VDD/VPP direction bits,
raises WR/OE and resets the cached extended segment to 0.  No C
variable other than `isp_hiaddr` changes. -/
def ispConnect (s : IspState) : IspState × List Ev :=
  ({ s with isp_hiaddr := 0 }, [Ev.linesOn])

/-- ispDisconnect: tristates the data bus and control port and drops
VDD/VPP.  It touches no C variable at all: dev_type, the page counter
and the cached extended segment keep their values. -/
def ispDisconnect (s : IspState) : IspState × List Ev :=
  (s, [Ev.linesOff])

/-- Number of ispFlushPage calls recorded in a trace. -/
def countFlush : List Ev → Nat
  | [] => 0
  | Ev.flushPage _ :: tr => countFlush tr + 1
  | _ :: tr => countFlush tr

/-- Number of extended-address register loads recorded in a trace. -/
def countExt : List Ev → Nat
  | [] => 0
  | Ev.extLoad _ :: tr => countExt tr + 1
  | _ :: tr => countExt tr

theorem countFlush_append (l1 l2 : List Ev) :
    countFlush (l1 ++ l2) = countFlush l1 + countFlush l2 := by
  induction l1 with
  | nil => simp [countFlush]
  | cons e tl ih =>
    cases e <;> simp [countFlush, ih] <;> omega

theorem countExt_append (l1 l2 : List Ev) :
    countExt (l1 ++ l2) = countExt l1 + countExt l2 := by
  induction l1 with
  | nil => simp [countExt]
  | cons e tl ih =>
    cases e <;> simp [countExt, ih] <;> omega

/-! ### Device detection (avr_progMode)

The three entry sequences only drive pins; what decides control flow is
the sequence of avr_getId results.  `idOf v k` models the signature byte
the target returns to the k-th avr_getId call made while probing
variant v (0 = full bus, 1 = short bus, 2 = serial HV). -/

/-- One signature poll loop of avr_progMode:
`while (avr_getId(0) != 0x1E) { if (timeout++ > 1000) break; }`.
Returns the number of avr_getId calls the loop makes.  The loop body
runs at most 1002 times (timeout 0 .. 1001), so fuel 1002 is exact. -/
def pollLoop (id : Nat → Nat) : Nat → Nat → Nat → Nat
  | 0, idx, _ => idx
  | fuel + 1, idx, t =>
    if id idx = 0x1E then idx + 1
    else if t > 1000 then idx + 1
    else pollLoop id fuel (idx + 1) (t + 1)

/-- One detection variant: run the bounded poll loop, then the final
`if (avr_getId(0) == 0x1E) return 0;` check (a fresh avr_getId call).
Returns whether the variant succeeded and the total number of
avr_getId calls it made. -/
def probeVariant (id : Nat → Nat) : Bool × Nat :=
  let n := pollLoop id 1002 0 0
  (id n == 0x1E, n + 1)

/-- avr_progMode: try full bus (dev_type := 0), then short bus
(dev_type := 1), then serial HV (dev_type := 2), in that order, stopping
at the first variant whose final signature check sees 0x1E.  Returns
(status, dev_type, (calls to variant 0, to variant 1, to variant 2));
status 0 = success, 1 = all three variants exhausted. -/
def avr_progMode (idOf : Nat → Nat → Nat) : Nat × Nat × (Nat × Nat × Nat) :=
  let p0 := probeVariant (idOf 0)
  if p0.1 then (0, 0, (p0.2, 0, 0))
  else
    let p1 := probeVariant (idOf 1)
    if p1.1 then (0, 1, (p0.2, p1.2, 0))
    else
      let p2 := probeVariant (idOf 2)
      if p2.1 then (0, 2, (p0.2, p1.2, p2.2))
      else (1, 2, (p0.2, p1.2, p2.2))

/-! ### Command state machine (usbFunctionSetup / Read / Write) -/

/-- The PROG_STATE_* values of the command state machine. -/
inductive PState : Type
  | idle
  | readflash
  | readeeprom
  | writeflash
  | writeeeprom
  | tpiread
  | tpiwrite
deriving DecidableEq, Repr

/-- Modelled from the spec: the PROG_BLOCKFLAG_FIRST / PROG_BLOCKFLAG_LAST
bit masks live in usbasp.h, which is not among the sources; the engine
only ever tests `blockflags & mask`, so all that matters is that they are
two distinct bits inside the 4-bit flags field (spec: byte[5] bits[3:0] =
block flags, with first-of-multi-block and last-of-multi-block flags). -/
def PROG_BLOCKFLAG_FIRST : Nat := 1

/-- Modelled from the spec: see PROG_BLOCKFLAG_FIRST. -/
def PROG_BLOCKFLAG_LAST : Nat := 2

/-- The `ProgrammingState prog` struct of the dispatch unit:
operation state, SCK option, long-address mode flag, 32-bit cursor
address, 16-bit remaining byte count, 16-bit page size, 4-bit block
flags, 8-bit page counter. -/
structure Prog : Type where
  state : PState
  sck_option : Nat
  address_newmode : Nat
  address : Nat
  nbytes : Nat
  pagesize : Nat
  blockflags : Nat
  pagecounter : Nat
deriving DecidableEq, Repr

/-- Result of one usbFunctionWrite call: returned uchar (0 = more data
expected, 1 = transfer complete, 0xFF = wrong state), updated session,
updated isp globals, emitted trace. -/
structure WRes : Type where
  ret : Nat
  prog : Prog
  isp : IspState
  tr : List Ev
deriving DecidableEq, Repr

/-- Result of one usbFunctionRead call: returned length (0xFF = wrong
state), produced bytes, updated session, updated isp globals, trace. -/
structure RRes : Type where
  ret : Nat
  bytesOut : List Nat
  prog : Prog
  isp : IspState
  tr : List Ev
deriving DecidableEq, Repr

/-- One iteration of the usbFunctionWrite for-loop body: flash writes go
through ispWriteFlash (pollmode 1 when unpaged, 0 when paged); in the
paged case `prog.pagecounter` is decremented (uchar) and on reaching 0
ispFlushPage runs and the counter is re-armed to `prog.pagesize`
(truncated to uchar); any other state writes EEPROM; then
`prog.nbytes` is decremented (16-bit) and on reaching 0 the state
reverts to idle, a pending partial page is flushed when the
last-of-multi-block flag is set and the counter is not exactly the page
size, and the completion flag is raised; finally the 32-bit cursor
address is incremented. -/
def writeStep (b : Nat) (p : Prog) (s : IspState) : Nat × Prog × IspState × List Ev :=
  let step1 : Prog × IspState × List Ev :=
    if p.state = PState.writeflash then
      if p.pagesize = 0 then
        let r := ispWriteFlash s p.address b 1
        (p, r.st, r.tr)
      else
        let r := ispWriteFlash s p.address b 0
        let c := (p.pagecounter + 255) % 256
        if c = 0 then
          let f := ispFlushPage r.st p.address b
          ({ p with pagecounter := p.pagesize % 256 }, f.st, r.tr ++ f.tr)
        else
          ({ p with pagecounter := c }, r.st, r.tr)
    else
      let r := ispWriteEEPROM s p.address b false
      (p, r.st, r.tr)
  let p1 := step1.1
  let s1 := step1.2.1
  let tr1 := step1.2.2
  let n := (p1.nbytes + 65535) % 65536
  if n = 0 then
    if p1.blockflags &&& PROG_BLOCKFLAG_LAST ≠ 0 ∧ p1.pagecounter ≠ p1.pagesize then
      let f := ispFlushPage s1 p1.address b
      (1, { p1 with nbytes := n, state := PState.idle,
                    address := (p1.address + 1) % 4294967296 }, f.st, tr1 ++ f.tr)
    else
      (1, { p1 with nbytes := n, state := PState.idle,
                    address := (p1.address + 1) % 4294967296 }, s1, tr1)
  else
    (0, { p1 with nbytes := n,
                  address := (p1.address + 1) % 4294967296 }, s1, tr1)

/-- The usbFunctionWrite for-loop over the chunk's bytes, threading the
sticky completion flag (retVal is only ever set, never cleared). -/
def writeLoop : List Nat → Nat → Prog → IspState → List Ev → WRes
  | [], rv, p, s, tr => ⟨rv, p, s, tr⟩
  | b :: rest, rv, p, s, tr =>
    let st := writeStep b p s
    writeLoop rest (max rv st.1) st.2.1 st.2.2.1 (tr ++ st.2.2.2)

/-- usbFunctionWrite: out-of-state calls return the 0xFF sentinel with
no bus activity and no state change; TPI writes are delegated to the
external TPI collaborator (block event only); otherwise the per-byte
loop runs over the chunk. -/
def usbFunctionWrite (p : Prog) (s : IspState) (l : List Nat) : WRes :=
  if p.state ≠ PState.writeflash ∧ p.state ≠ PState.writeeeprom ∧
      p.state ≠ PState.tpiwrite then
    ⟨0xFF, p, s, []⟩
  else if p.state = PState.tpiwrite then
    let n := (p.nbytes + 65536 - l.length % 65536) % 65536
    if n = 0 then
      ⟨1, { p with state := PState.idle, nbytes := 0,
                   address := (p.address + l.length) % 4294967296 }, s,
        [Ev.tpiWrite p.address l.length]⟩
    else
      ⟨0, { p with nbytes := n,
                   address := (p.address + l.length) % 4294967296 }, s,
        [Ev.tpiWrite p.address l.length]⟩
  else
    writeLoop l 0 p s []

/-- The usbFunctionRead for-loop: each byte comes from ispReadFlash in
the readflash state and from ispReadEEPROM otherwise, with the 32-bit
cursor address incremented after each byte. -/
def readLoop (penv : Nat → Nat) : Nat → Prog → IspState → (List Nat × Prog × IspState × List Ev)
  | 0, p, s => ([], p, s, [])
  | n + 1, p, s =>
    let r := if p.state = PState.readflash then ispReadFlash penv s p.address
             else ispReadEEPROM penv s p.address
    let p1 := { p with address := (p.address + 1) % 4294967296 }
    let rest := readLoop penv n p1 r.st
    (r.ret :: rest.1, rest.2.1, rest.2.2.1, r.tr ++ rest.2.2.2)

/-- usbFunctionRead: out-of-state calls return the 0xFF sentinel with no
bus activity and no state change; TPI reads are delegated (block event,
bytes modelled as zeros since the TPI collaborator is external);
otherwise the read loop fills the chunk and a chunk shorter than the
8-byte transport packet reverts the state to idle. -/
def usbFunctionRead (penv : Nat → Nat) (p : Prog) (s : IspState) (len : Nat) : RRes :=
  if p.state ≠ PState.readflash ∧ p.state ≠ PState.readeeprom ∧
      p.state ≠ PState.tpiread then
    ⟨0xFF, [], p, s, []⟩
  else if p.state = PState.tpiread then
    ⟨len, List.replicate len 0,
      { p with address := (p.address + len) % 4294967296 }, s,
      [Ev.tpiRead p.address len]⟩
  else
    let r := readLoop penv len p s
    let p1 := if len < 8 then { r.2.1 with state := PState.idle } else r.2.1
    ⟨len, r.1, p1, r.2.2.1, r.2.2.2⟩

/-- Host commands relevant to the claims, with the raw header bytes each
branch of usbFunctionSetup reads (the numeric USBASP_FUNC_* dispatch
codes live in the absent usbasp.h header; the inductive tag stands for
the dispatch on data[1]). -/
inductive UsbCmd : Type
  | connect
  | disconnect
  | readflashCmd (d2 d3 d6 d7 : Nat)
  | readeepromCmd (d2 d3 d6 d7 : Nat)
  | writeflashCmd (d2 d3 d4 d5 d6 d7 : Nat)
  | writeeepromCmd (d2 d3 d6 d7 : Nat)
  | setlongaddress (d2 d3 d4 d5 : Nat)
deriving DecidableEq, Repr

/-- usbFunctionSetup, restricted to the modelled commands.  connect
issues ispSetSCKOption's exchanges (its body ignores the option
argument) and ispConnect, and clears the long-address mode;
disconnect calls ispDisconnect (pin teardown only — observe that it
leaves `p` untouched); the streaming commands capture address (16-bit
legacy form unless long-address mode is active), count, and for flash
writes page size and block flags (re-arming the page counter on the
first-of-multi-block flag), then set the matching state and return the
0xFF data-phase indication. -/
def usbFunctionSetup (cmd : UsbCmd) (p : Prog) (s : IspState) :
    Nat × Prog × IspState × List Ev :=
  match cmd with
  | UsbCmd.connect =>
    let c := ispConnect s
    (0, { p with address_newmode := 0 }, c.1,
      [Ev.serialX 0x4C 0x80, Ev.serialX 0x64 0x00, Ev.serialX 0x6C 0x00,
       Ev.busyPoll] ++ c.2)
  | UsbCmd.disconnect =>
    let dcr := ispDisconnect s
    (0, p, dcr.1, dcr.2)
  | UsbCmd.readflashCmd d2 d3 d6 d7 =>
    let p1 := if p.address_newmode = 0 then
        { p with address := (d3 % 256) * 256 + d2 % 256 } else p
    (0xFF, { p1 with nbytes := (d7 % 256) * 256 + d6 % 256,
                     state := PState.readflash }, s, [])
  | UsbCmd.readeepromCmd d2 d3 d6 d7 =>
    let p1 := if p.address_newmode = 0 then
        { p with address := (d3 % 256) * 256 + d2 % 256 } else p
    (0xFF, { p1 with nbytes := (d7 % 256) * 256 + d6 % 256,
                     state := PState.readeeprom }, s, [])
  | UsbCmd.writeflashCmd d2 d3 d4 d5 d6 d7 =>
    let p1 := if p.address_newmode = 0 then
        { p with address := (d3 % 256) * 256 + d2 % 256 } else p
    let ps := d4 % 256 + (((d5 % 256) &&& 0xF0) <<< 4)
    let bf := (d5 % 256) &&& 0x0F
    let p2 := { p1 with pagesize := ps, blockflags := bf }
    let p3 := if bf &&& PROG_BLOCKFLAG_FIRST ≠ 0 then
        { p2 with pagecounter := ps % 256 } else p2
    (0xFF, { p3 with nbytes := (d7 % 256) * 256 + d6 % 256,
                     state := PState.writeflash }, s, [])
  | UsbCmd.writeeepromCmd d2 d3 d6 d7 =>
    let p1 := if p.address_newmode = 0 then
        { p with address := (d3 % 256) * 256 + d2 % 256 } else p
    (0xFF, { p1 with pagesize := 0, blockflags := 0,
                     nbytes := (d7 % 256) * 256 + d6 % 256,
                     state := PState.writeeeprom }, s, [])
  | UsbCmd.setlongaddress d2 d3 d4 d5 =>
    (0, { p with address_newmode := 1,
                 address := d2 % 256 + (d3 % 256) * 256 +
                   (d4 % 256) * 65536 + (d5 % 256) * 16777216 }, s, [])

/-! ### Helper lemmas -/

theorem countExt_avr_loadComm (s : IspState) (c : Nat) :
    countExt (avr_loadComm s c) = 0 := by
  unfold avr_loadComm; split <;> simp [countExt]

theorem countExt_avr_loadAdd (s : IspState) (a hilo : Nat) :
    countExt (avr_loadAdd s a hilo) = 0 := by
  unfold avr_loadAdd; split <;> simp [countExt]

theorem getLastq_append_singleton (l : List Ev) (e : Ev) :
    (l ++ [e]).getLast? = some e := by
  rw [List.getLast?_append_of_ne_nil _ (by simp)]; rfl

theorem ispUpdateExtended_hiaddr (s : IspState) (a : Nat) :
    (ispUpdateExtended s a).1.isp_hiaddr = (a >>> 17) &&& 0xFF := by
  by_cases h : s.isp_hiaddr ^^^ ((a >>> 17) &&& 0xFF) = 0
  · simp only [ispUpdateExtended, if_pos h]
    exact Nat.xor_eq_zero.mp h
  · simp only [ispUpdateExtended, if_neg h]

theorem countExt_ispUpdateExtended (s : IspState) (a : Nat) :
    countExt (ispUpdateExtended s a).2 =
      if s.isp_hiaddr = (a >>> 17) &&& 0xFF then 0 else 1 := by
  by_cases h : s.isp_hiaddr ^^^ ((a >>> 17) &&& 0xFF) = 0
  · simp only [ispUpdateExtended, if_pos h, if_pos (Nat.xor_eq_zero.mp h)]
    rfl
  · simp only [ispUpdateExtended, if_neg h,
      if_neg (fun he => h (Nat.xor_eq_zero.mpr he))]
    rfl

theorem parallelWriteFlash_ret (s : IspState) (a d pm : Nat) :
    (parallelWriteFlash s a d pm).ret = 0 := by
  simp only [parallelWriteFlash]; split <;> rfl

theorem serialWriteFlash_ret (s : IspState) (a d pm : Nat) :
    (serialWriteFlash s a d pm).ret = 0 := by
  simp only [serialWriteFlash]; split <;> rfl

theorem ispFlushPage_ret (s : IspState) (a pv : Nat) :
    (ispFlushPage s a pv).ret = 0 := by
  simp only [ispFlushPage]; split <;> rfl

theorem ispWriteEEPROM_ret (s : IspState) (a d : Nat) (t : Bool) :
    (ispWriteEEPROM s a d t).ret = 0 := by
  simp only [ispWriteEEPROM]; split <;> rfl

/-! ### Claim C10 -/

/-- Claim C10: ispWriteFlash, ispFlushPage and ispWriteEEPROM return 0
(success) for every device type, address, data byte, poll-mode argument
and busy-poll outcome — the flash/EEPROM write path has no failure
return channel, so even a serial busy-poll timeout (which silently
resets the target inside avr_bsySerial) is invisible to the command
state machine and to the host. -/
theorem writePath_always_reports_success (s : IspState) (a d pm pv : Nat) (t : Bool) :
    (ispWriteFlash s a d pm).ret = 0 ∧ (ispFlushPage s a pv).ret = 0 ∧
      (ispWriteEEPROM s a d t).ret = 0 := by
  refine ⟨?_, ispFlushPage_ret s a pv, ispWriteEEPROM_ret s a d t⟩
  simp only [ispWriteFlash]
  split
  · exact parallelWriteFlash_ret s a d pm
  · exact serialWriteFlash_ret s a d pm

/-! ### Claim C6 -/

/-- Claim C6: invoking the read data phase while the operation state is
not a reading state, or the write data phase while it is not a writing
state, returns the distinguished 0xFF sentinel, performs no access-layer
call (empty trace) and leaves the session state unchanged. -/
theorem dataPhase_out_of_state_sentinel (penv : Nat → Nat) (p : Prog) (s : IspState)
    (len : Nat) (l : List Nat) :
    (p.state ≠ PState.readflash → p.state ≠ PState.readeeprom →
      p.state ≠ PState.tpiread →
      usbFunctionRead penv p s len = ⟨0xFF, [], p, s, []⟩) ∧
    (p.state ≠ PState.writeflash → p.state ≠ PState.writeeeprom →
      p.state ≠ PState.tpiwrite →
      usbFunctionWrite p s l = ⟨0xFF, p, s, []⟩) := by
  constructor
  · intro h1 h2 h3
    simp only [usbFunctionRead, if_pos (And.intro h1 (And.intro h2 h3))]
  · intro h1 h2 h3
    simp only [usbFunctionWrite, if_pos (And.intro h1 (And.intro h2 h3))]

/-- Witness for C6: a concrete idle session rejects both data phases. -/
theorem dataPhase_out_of_state_sentinel_witness :
    usbFunctionRead (fun _ => 0) ⟨PState.idle, 0, 0, 0, 0, 0, 0, 0⟩ ⟨0, 0, 0, 0, 0⟩ 8 =
      ⟨0xFF, [], ⟨PState.idle, 0, 0, 0, 0, 0, 0, 0⟩, ⟨0, 0, 0, 0, 0⟩, []⟩ ∧
    usbFunctionWrite ⟨PState.idle, 0, 0, 0, 0, 0, 0, 0⟩ ⟨0, 0, 0, 0, 0⟩ [1, 2] =
      ⟨0xFF, ⟨PState.idle, 0, 0, 0, 0, 0, 0, 0⟩, ⟨0, 0, 0, 0, 0⟩, []⟩ :=
  ⟨(dataPhase_out_of_state_sentinel (fun _ => 0) _ _ 8 [1, 2]).1
      (by decide) (by decide) (by decide),
   (dataPhase_out_of_state_sentinel (fun _ => 0) _ _ 8 [1, 2]).2
      (by decide) (by decide) (by decide)⟩

/-! ### Claim C7 -/

/-- Claim C7 (amended): the disconnect host command only tears down the
supply/programming-voltage lines (ispDisconnect): it leaves the whole
session record — operation state, cursor address, remaining count, page
size, block flags, long-address mode — and the isp globals including
dev_type unchanged, and flushes nothing, so a pending page buffer is
abandoned, not flushed. -/
theorem usbDisconnect_keeps_session (p : Prog) (s : IspState) :
    usbFunctionSetup UsbCmd.disconnect p s = (0, p, s, [Ev.linesOff]) ∧
    countFlush (usbFunctionSetup UsbCmd.disconnect p s).2.2.2 = 0 :=
  ⟨rfl, rfl⟩

/-- Claim C7 counterexample: a disconnect received in the middle of a
flash write of a serial-HV target leaves the operation state at
WritingFlash (not Idle), leaves long-address mode set and leaves
dev_type untouched — the claimed session reset does not happen. -/
theorem usbDisconnect_no_reset_cex :
    (usbFunctionSetup UsbCmd.disconnect
        ⟨PState.writeflash, 0, 1, 5, 7, 4, 3, 2⟩ ⟨2, 4, 1, 0x11, 0⟩).2.1.state ≠
      PState.idle ∧
    (usbFunctionSetup UsbCmd.disconnect
        ⟨PState.writeflash, 0, 1, 5, 7, 4, 3, 2⟩ ⟨2, 4, 1, 0x11, 0⟩).2.1.address_newmode
      = 1 ∧
    (usbFunctionSetup UsbCmd.disconnect
        ⟨PState.writeflash, 0, 1, 5, 7, 4, 3, 2⟩ ⟨2, 4, 1, 0x11, 0⟩).2.2.1.dev_type
      = 2 := by
  decide

/-! ### Claim C8 -/

/-- Claim C8 (amended): a fuse kind above 3 is normalized to kind % 3 —
not modulo the kind count 4 — and the fuse read is performed for that
normalized kind rather than rejected; every out-of-range kind therefore
maps onto one of the kinds 0 (high), 1 (low), 2 (extended), and never
onto 3 (lock bits). -/
theorem avr_getFuse_mod3 (fenv : Nat → Nat) (s : IspState) (bt : Nat) (h : bt > 3) :
    avr_getFuse fenv s bt = avr_getFuse fenv s (bt % 3) ∧ bt % 3 < 3 := by
  have h3 : ¬ bt % 3 > 3 := by omega
  refine ⟨?_, by omega⟩
  simp only [avr_getFuse, if_pos h, if_neg h3]

/-- Witness for C8's amended theorem at kind 5. -/
theorem avr_getFuse_mod3_witness :
    avr_getFuse (fun k => k) ⟨2, 0, 0, 0, 0⟩ 5 =
      avr_getFuse (fun k => k) ⟨2, 0, 0, 0, 0⟩ (5 % 3) ∧ 5 % 3 < 3 :=
  avr_getFuse_mod3 (fun k => k) ⟨2, 0, 0, 0, 0⟩ 5 (by decide)

/-- Claim C8 counterexample: at kind 5 the code performs the kind-2
(extended fuse) read; the claimed mod-4 normalization would perform the
kind-1 read, whose serial exchange sequence is different. -/
theorem avr_getFuse_not_mod4_cex :
    avr_getFuse (fun k => k) ⟨2, 0, 0, 0, 0⟩ 5 =
      avr_getFuse (fun k => k) ⟨2, 0, 0, 0, 0⟩ 2 ∧
    avr_getFuse (fun k => k) ⟨2, 0, 0, 0, 0⟩ 5 ≠
      avr_getFuse (fun k => k) ⟨2, 0, 0, 0, 0⟩ (5 % 4) := by
  decide

/-! ### Claim C9 -/

/-- Claim C9 (amended): writeEEPROM is accepted as a no-op success
exactly for the parallel-bus families (dev_type 0 and 1); for the
serial-HV family it performs the full serial EEPROM write exchange
sequence followed by the busy poll; readEEPROM performs a target access
(nonempty bus trace) for every family; and writeEEPROM reports success
on every path. -/
theorem ispEEPROM_noop_families (penv : Nat → Nat) (s : IspState) (a d : Nat) (t : Bool) :
    (s.dev_type = 0 ∨ s.dev_type = 1 → ispWriteEEPROM s a d t = ⟨0, s, []⟩) ∧
    (¬(s.dev_type = 0 ∨ s.dev_type = 1) →
      ispWriteEEPROM s a d t =
        ⟨0, s, [Ev.serialX 0x4C 0x11, Ev.serialX 0x0C (a &&& 0xFF),
                Ev.serialX 0x1C ((a >>> 8) % 256), Ev.serialX 0x2C (d % 256),
                Ev.serialX 0x6D 0x00, Ev.serialX 0x64 0x00, Ev.serialX 0x6C 0x00] ++
               avr_bsySerial t⟩) ∧
    (ispWriteEEPROM s a d t).ret = 0 ∧
    (ispReadEEPROM penv s a).tr ≠ [] := by
  refine ⟨?_, ?_, ispWriteEEPROM_ret s a d t, ?_⟩
  · intro h
    simp only [ispWriteEEPROM, if_pos h]
  · intro h
    simp only [ispWriteEEPROM, if_neg h]
  · by_cases h : s.dev_type = 0 ∨ s.dev_type = 1
    · simp only [ispReadEEPROM, if_pos h]
      simp
    · simp only [ispReadEEPROM, if_neg h]
      simp

/-- Witness for C9's amended theorem: a FullBus target's write is a
no-op success, a serial-HV target's write performs the exchange
sequence plus busy poll, and a FullBus target's read touches the bus. -/
theorem ispEEPROM_noop_families_witness :
    ispWriteEEPROM ⟨0, 0, 0, 0, 0⟩ 3 7 false = ⟨0, ⟨0, 0, 0, 0, 0⟩, []⟩ ∧
    ispWriteEEPROM ⟨2, 0, 0, 0, 0⟩ 3 7 false =
      ⟨0, ⟨2, 0, 0, 0, 0⟩,
        [Ev.serialX 0x4C 0x11, Ev.serialX 0x0C (3 &&& 0xFF),
         Ev.serialX 0x1C ((3 >>> 8) % 256), Ev.serialX 0x2C (7 % 256),
         Ev.serialX 0x6D 0x00, Ev.serialX 0x64 0x00, Ev.serialX 0x6C 0x00] ++
        avr_bsySerial false⟩ ∧
    (ispReadEEPROM (fun _ => 0) ⟨0, 0, 0, 0, 0⟩ 3).tr ≠ [] :=
  ⟨(ispEEPROM_noop_families (fun _ => 0) ⟨0, 0, 0, 0, 0⟩ 3 7 false).1 (Or.inl rfl),
   (ispEEPROM_noop_families (fun _ => 0) ⟨2, 0, 0, 0, 0⟩ 3 7 false).2.1 (by decide),
   (ispEEPROM_noop_families (fun _ => 0) ⟨0, 0, 0, 0, 0⟩ 3 7 false).2.2.2⟩

/-- Claim C9 counterexample: for the serial-HV family (dev_type 2) both
EEPROM operations perform target accesses (nonempty bus traces) — the
claimed accepted-as-no-op behavior fails at address 0. -/
theorem ispEEPROM_serial_accesses_cex :
    (ispWriteEEPROM ⟨2, 0, 0, 0, 0⟩ 0 0 false).tr ≠ [] ∧
    (ispReadEEPROM (fun _ => 0) ⟨2, 0, 0, 0, 0⟩ 0).tr ≠ [] := by
  decide

/-! ### Claim C5 -/

theorem parallelReadFlash_st (penv : Nat → Nat) (s : IspState) (a : Nat) :
    (parallelReadFlash penv s a).st = (ispUpdateExtended s a).1 := rfl

theorem countExt_parallelReadFlash (penv : Nat → Nat) (s : IspState) (a : Nat) :
    countExt (parallelReadFlash penv s a).tr =
      if s.isp_hiaddr = (a >>> 17) &&& 0xFF then 0 else 1 := by
  by_cases hc : s.isp_hiaddr = (a >>> 17) &&& 0xFF <;>
    simp [parallelReadFlash, countExt_append, countExt_avr_loadComm,
      countExt_avr_loadAdd, countExt_ispUpdateExtended, countExt, hc]

theorem getLastq_parallelReadFlash (penv : Nat → Nat) (s : IspState) (a : Nat) :
    (parallelReadFlash penv s a).tr.getLast? = some Ev.dataRead := by
  simp only [parallelReadFlash, ← List.append_assoc]
  exact getLastq_append_singleton _ _

/-- Claim C5: after a parallel readFlash the cached segment equals the
high-order segment (address bits 17 and up) of the address just
accessed; a second read whose address shares that segment issues no
extended-address load, while a read whose segment differs from the
cache issues exactly one extended-address load before its data access
and updates the cache to the new segment. -/
theorem parallelReadFlash_extCaching (penv : Nat → Nat) (s : IspState) (a1 a2 : Nat) :
    (parallelReadFlash penv s a1).st.isp_hiaddr = (a1 >>> 17) &&& 0xFF ∧
    ((a2 >>> 17) &&& 0xFF = (a1 >>> 17) &&& 0xFF →
      countExt (parallelReadFlash penv (parallelReadFlash penv s a1).st a2).tr = 0) ∧
    ((a2 >>> 17) &&& 0xFF ≠ (parallelReadFlash penv s a1).st.isp_hiaddr →
      countExt (parallelReadFlash penv (parallelReadFlash penv s a1).st a2).tr = 1 ∧
      (parallelReadFlash penv (parallelReadFlash penv s a1).st a2).st.isp_hiaddr
        = (a2 >>> 17) &&& 0xFF ∧
      (parallelReadFlash penv (parallelReadFlash penv s a1).st a2).tr.getLast?
        = some Ev.dataRead) := by
  have hfst : (parallelReadFlash penv s a1).st.isp_hiaddr = (a1 >>> 17) &&& 0xFF := by
    rw [parallelReadFlash_st, ispUpdateExtended_hiaddr]
  refine ⟨hfst, ?_, ?_⟩
  · intro hseg
    rw [countExt_parallelReadFlash, if_pos (by rw [hfst, hseg])]
  · intro hseg
    refine ⟨?_, ?_, getLastq_parallelReadFlash penv _ a2⟩
    · rw [countExt_parallelReadFlash, if_neg (fun he => hseg (by rw [he]))]
    · rw [parallelReadFlash_st, ispUpdateExtended_hiaddr]

/-- Witness for C5: from a cleared cache, a read at 0 caches segment 0,
a second read at 2 (same segment) loads nothing, and a read at 2^17
(segment 1) loads exactly once. -/
theorem parallelReadFlash_extCaching_witness :
    countExt (parallelReadFlash (fun _ => 0)
      (parallelReadFlash (fun _ => 0) ⟨0, 0, 0, 0, 0⟩ 0).st 2).tr = 0 ∧
    countExt (parallelReadFlash (fun _ => 0)
      (parallelReadFlash (fun _ => 0) ⟨0, 0, 0, 0, 0⟩ 0).st 131072).tr = 1 :=
  ⟨(parallelReadFlash_extCaching (fun _ => 0) ⟨0, 0, 0, 0, 0⟩ 0 2).2.1 (by decide),
   ((parallelReadFlash_extCaching (fun _ => 0) ⟨0, 0, 0, 0, 0⟩ 0 131072).2.2
      (by decide)).1⟩

/-! ### Claim C2 -/

/-- Claim C2: mid-page (page counter strictly below the page size, so no
auto-flush intervenes), a flash write at an even address only stores the
byte as the pending low byte and increments the page counter, with no
bus transaction; a write at an odd address loads the word's low address
bits, drives the pending low byte with one clock pulse, the high byte
with a second pulse, pulses the page-load strobe, and increments the
counter — using whatever pending low byte the state holds, whether or
not a matching even-address write preceded it.  Both the parallel and
the serial implementation follow this discipline (the serial one with
its exchange sequence in place of the pulses). -/
theorem writeFlash_word_buffering (s : IspState) (a d : Nat)
    (hdev : s.dev_type = 0 ∨ s.dev_type = 1)
    (hc : s.prog_pagecounter < s.prog_pagesize) :
    (a % 2 = 0 →
      parallelWriteFlash s a d 0 =
        ⟨0, { s with low_byte := d % 256,
                     prog_pagecounter := (s.prog_pagecounter + 1) % 256 }, []⟩ ∧
      serialWriteFlash s a d 0 =
        ⟨0, { s with low_byte := d % 256,
                     prog_pagecounter := (s.prog_pagecounter + 1) % 256 }, []⟩) ∧
    (a % 2 = 1 →
      parallelWriteFlash s a d 0 =
        ⟨0, { s with prog_pagecounter := (s.prog_pagecounter + 1) % 256 },
          [Ev.loadAdd ((a >>> 1) &&& 0xFF) 0, Ev.pulseData s.low_byte,
           Ev.pulseData (d % 256), Ev.pagelStrobe]⟩ ∧
      serialWriteFlash s a d 0 =
        ⟨0, { s with prog_pagecounter := (s.prog_pagecounter + 1) % 256 },
          [Ev.serialX 0x0C ((a >>> 1) &&& 0xFF), Ev.serialX 0x2C s.low_byte,
           Ev.serialX 0x3C (d % 256), Ev.serialX 0x7D 0x00,
           Ev.serialX 0x7C 0x00]⟩) := by
  have hpre : ¬ s.prog_pagecounter ≥ s.prog_pagesize := not_le.mpr hc
  constructor
  · intro ha
    constructor
    · simp only [parallelWriteFlash, if_neg hpre, if_pos ha]
    · simp only [serialWriteFlash, if_neg hpre, if_pos ha]
  · intro ha
    have ha0 : ¬ a % 2 = 0 := by omega
    have hlt : (a >>> 1) &&& 0xFF < 256 :=
      lt_of_le_of_lt Nat.and_le_right (by norm_num)
    constructor
    · simp only [parallelWriteFlash, if_neg hpre, if_neg ha0, avr_loadAdd,
        if_pos hdev, Nat.mod_eq_of_lt hlt]
      simp
    · simp only [serialWriteFlash, if_neg hpre, if_neg ha0]
      simp

/-- Witness for C2 on the parallel transport: page size 2, counter 0,
pending low byte 0x11; the even write buffers 0x22, the odd write emits
address load, two data pulses (0x11 then 0x22) and the PAGEL strobe. -/
theorem writeFlash_word_buffering_witness :
    parallelWriteFlash ⟨0, 2, 0, 0x11, 0⟩ 0 0x22 0 = ⟨0, ⟨0, 2, 1, 0x22, 0⟩, []⟩ ∧
    parallelWriteFlash ⟨0, 2, 0, 0x11, 0⟩ 1 0x22 0 =
      ⟨0, ⟨0, 2, 1, 0x11, 0⟩,
        [Ev.loadAdd 0 0, Ev.pulseData 0x11, Ev.pulseData 0x22, Ev.pagelStrobe]⟩ := by
  constructor
  · exact ((writeFlash_word_buffering ⟨0, 2, 0, 0x11, 0⟩ 0 0x22 (Or.inl rfl)
      (by decide)).1 rfl).1
  · exact ((writeFlash_word_buffering ⟨0, 2, 0, 0x11, 0⟩ 1 0x22 (Or.inl rfl)
      (by decide)).2 rfl).1

/-! ### Claim C1 -/

theorem pollLoop_le (id : Nat → Nat) :
    ∀ (fuel idx t : Nat), pollLoop id fuel idx t ≤ idx + fuel
  | 0, idx, t => by simp [pollLoop]
  | fuel + 1, idx, t => by
    simp only [pollLoop]
    split
    · omega
    · split
      · omega
      · have := pollLoop_le id fuel (idx + 1) (t + 1)
        omega

theorem probeVariant_calls_le (id : Nat → Nat) : (probeVariant id).2 ≤ 1003 := by
  have := pollLoop_le id 1002 0 0
  simp only [probeVariant]
  omega

theorem probeVariant_fail (id : Nat → Nat) (h : ∀ k, id k ≠ 0x1E) :
    (probeVariant id).1 = false := by
  have hne := h (pollLoop id 1002 0 0)
  simp only [probeVariant]
  simp [hne]

theorem probeVariant_succ (id : Nat → Nat) (h : ∀ k, id k = 0x1E) :
    (probeVariant id).1 = true := by
  simp only [probeVariant]
  simp [h (pollLoop id 1002 0 0)]

theorem avr_progMode_eq (idOf : Nat → Nat → Nat) :
    avr_progMode idOf =
      if (probeVariant (idOf 0)).1 then (0, 0, ((probeVariant (idOf 0)).2, 0, 0))
      else if (probeVariant (idOf 1)).1 then
        (0, 1, ((probeVariant (idOf 0)).2, (probeVariant (idOf 1)).2, 0))
      else if (probeVariant (idOf 2)).1 then
        (0, 2, ((probeVariant (idOf 0)).2, (probeVariant (idOf 1)).2,
                (probeVariant (idOf 2)).2))
      else (1, 2, ((probeVariant (idOf 0)).2, (probeVariant (idOf 1)).2,
                   (probeVariant (idOf 2)).2)) := rfl

/-- Claim C1: avr_progMode probes full bus, short bus, serial HV in that
fixed order, each with a signature poll bounded by the ~1000-iteration
timeout (at most 1003 avr_getId calls per variant); it stops at the
first variant whose signature check sees vendor id 0x1E, returning
status 0 with dev_type set to that variant and making no avr_getId call
on later variants; when every variant's poll never sees 0x1E it returns
the nonzero failure status after the bounded number of probe steps.
`idOf v k` is the signature byte answered to the k-th avr_getId call of
variant v. -/
theorem avr_progMode_detection (idOf : Nat → Nat → Nat) :
    ((avr_progMode idOf).2.2.1 ≤ 1003 ∧ (avr_progMode idOf).2.2.2.1 ≤ 1003 ∧
      (avr_progMode idOf).2.2.2.2 ≤ 1003) ∧
    ((∀ k, idOf 0 k = 0x1E) →
      (avr_progMode idOf).1 = 0 ∧ (avr_progMode idOf).2.1 = 0 ∧
      (avr_progMode idOf).2.2.2.1 = 0 ∧ (avr_progMode idOf).2.2.2.2 = 0) ∧
    ((∀ k, idOf 0 k ≠ 0x1E) → (∀ k, idOf 1 k = 0x1E) →
      (avr_progMode idOf).1 = 0 ∧ (avr_progMode idOf).2.1 = 1 ∧
      (avr_progMode idOf).2.2.2.2 = 0) ∧
    ((∀ k, idOf 0 k ≠ 0x1E) → (∀ k, idOf 1 k ≠ 0x1E) → (∀ k, idOf 2 k = 0x1E) →
      (avr_progMode idOf).1 = 0 ∧ (avr_progMode idOf).2.1 = 2) ∧
    ((∀ v k, idOf v k ≠ 0x1E) → (avr_progMode idOf).1 = 1) := by
  have c0 := probeVariant_calls_le (idOf 0)
  have c1 := probeVariant_calls_le (idOf 1)
  have c2 := probeVariant_calls_le (idOf 2)
  refine ⟨?_, ?_, ?_, ?_, ?_⟩
  · rw [avr_progMode_eq]
    by_cases h0 : (probeVariant (idOf 0)).1 <;>
      by_cases h1 : (probeVariant (idOf 1)).1 <;>
        by_cases h2 : (probeVariant (idOf 2)).1 <;>
          simp [h0, h1, h2] <;> omega
  · intro hall
    rw [avr_progMode_eq]
    simp [probeVariant_succ _ hall]
  · intro h0 h1
    rw [avr_progMode_eq]
    simp [probeVariant_fail _ h0, probeVariant_succ _ h1]
  · intro h0 h1 h2
    rw [avr_progMode_eq]
    simp [probeVariant_fail _ h0, probeVariant_fail _ h1, probeVariant_succ _ h2]
  · intro hall
    rw [avr_progMode_eq]
    simp [probeVariant_fail _ (hall 0), probeVariant_fail _ (hall 1),
      probeVariant_fail _ (hall 2)]

/-- Witness for C1: a target answering 0x1E at once is detected as
variant 0 (status 0); one answering only on the short-bus probe yields
variant 1 with no serial-HV call; one answering only on serial HV yields
variant 2; a silent target yields the failure status 1. -/
theorem avr_progMode_detection_witness :
    (avr_progMode (fun _ _ => 0x1E)).1 = 0 ∧
    (avr_progMode (fun _ _ => 0x1E)).2.1 = 0 ∧
    (avr_progMode (fun v _ => if v = 1 then 0x1E else 0)).1 = 0 ∧
    (avr_progMode (fun v _ => if v = 1 then 0x1E else 0)).2.1 = 1 ∧
    (avr_progMode (fun v _ => if v = 2 then 0x1E else 0)).1 = 0 ∧
    (avr_progMode (fun v _ => if v = 2 then 0x1E else 0)).2.1 = 2 ∧
    (avr_progMode (fun _ _ => 0)).1 = 1 := by
  have w1 := (avr_progMode_detection (fun _ _ => 0x1E)).2.1 (fun k => rfl)
  have w2 := (avr_progMode_detection (fun v _ => if v = 1 then 0x1E else 0)).2.2.1
    (fun k => by decide) (fun k => by decide)
  have w3 := (avr_progMode_detection (fun v _ => if v = 2 then 0x1E else 0)).2.2.2.1
    (fun k => by decide) (fun k => by decide) (fun k => by decide)
  have w4 := (avr_progMode_detection (fun _ _ => 0)).2.2.2.2 (fun v k => by decide)
  exact ⟨w1.1, w1.2.1, w2.1, w2.2.1, w3.1, w3.2, w4⟩

/-! ### Paged-write stream lemmas (claims C3 and C4) -/

theorem countFlush_avr_loadComm (s : IspState) (c : Nat) :
    countFlush (avr_loadComm s c) = 0 := by
  unfold avr_loadComm; split <;> rfl

theorem countFlush_avr_loadAdd (s : IspState) (a hilo : Nat) :
    countFlush (avr_loadAdd s a hilo) = 0 := by
  unfold avr_loadAdd; split <;> rfl

theorem countFlush_ispUpdateExtended (s : IspState) (a : Nat) :
    countFlush (ispUpdateExtended s a).2 = 0 := by
  simp only [ispUpdateExtended]; split <;> rfl

theorem countFlush_parallelWriteFlash (s : IspState) (a d pm : Nat) :
    countFlush (parallelWriteFlash s a d pm).tr = 0 := by
  by_cases h1 : s.prog_pagecounter ≥ s.prog_pagesize <;>
    by_cases h2 : a % 2 = 0 <;>
      simp [parallelWriteFlash, h1, h2, countFlush_append, countFlush_avr_loadComm,
        countFlush_avr_loadAdd, countFlush]

theorem countFlush_serialWriteFlash (s : IspState) (a d pm : Nat) :
    countFlush (serialWriteFlash s a d pm).tr = 0 := by
  by_cases h1 : s.prog_pagecounter ≥ s.prog_pagesize <;>
    by_cases h2 : a % 2 = 0 <;>
      simp [serialWriteFlash, h1, h2, countFlush_append, countFlush]

theorem countFlush_ispWriteFlash (s : IspState) (a d pm : Nat) :
    countFlush (ispWriteFlash s a d pm).tr = 0 := by
  simp only [ispWriteFlash]
  split
  · exact countFlush_parallelWriteFlash s a d pm
  · exact countFlush_serialWriteFlash s a d pm

theorem countFlush_ispFlushPage (s : IspState) (a pv : Nat) :
    countFlush (ispFlushPage s a pv).tr = 1 := by
  simp only [ispFlushPage]
  split
  · simp [countFlush, countFlush_append, countFlush_avr_loadAdd,
      countFlush_ispUpdateExtended]
  · rfl

/-- Mid-stream step: page counter above 1 and more than one byte left,
so neither a counter flush nor completion fires. -/
theorem writeStep_mid (b : Nat) (p : Prog) (s : IspState)
    (hst : p.state = PState.writeflash) (hps : 0 < p.pagesize)
    (hc1 : 1 < p.pagecounter) (hc2 : p.pagecounter < 256)
    (hn1 : 1 < p.nbytes) (hn2 : p.nbytes < 65536) :
    (writeStep b p s).1 = 0 ∧
    (writeStep b p s).2.1.state = PState.writeflash ∧
    (writeStep b p s).2.1.pagecounter = p.pagecounter - 1 ∧
    (writeStep b p s).2.1.nbytes = p.nbytes - 1 ∧
    (writeStep b p s).2.1.pagesize = p.pagesize ∧
    (writeStep b p s).2.1.blockflags = p.blockflags ∧
    countFlush (writeStep b p s).2.2.2 = 0 := by
  have hA : ¬ p.pagesize = 0 := by omega
  have hB : ¬ (p.pagecounter + 255) % 256 = 0 := by omega
  have hC : ¬ (p.nbytes + 65535) % 65536 = 0 := by omega
  refine ⟨?_, ?_, ?_, ?_, ?_, ?_, ?_⟩ <;>
    simp [writeStep, hst, hA, hB, hC, countFlush_ispWriteFlash] <;> omega

/-- Page-boundary step mid-stream: the counter reaches 0, ispFlushPage
runs and the counter is re-armed, but more bytes remain. -/
theorem writeStep_flush (b : Nat) (p : Prog) (s : IspState)
    (hst : p.state = PState.writeflash) (hps : 0 < p.pagesize)
    (hc : p.pagecounter = 1) (hn1 : 1 < p.nbytes) (hn2 : p.nbytes < 65536) :
    (writeStep b p s).1 = 0 ∧
    (writeStep b p s).2.1.state = PState.writeflash ∧
    (writeStep b p s).2.1.pagecounter = p.pagesize % 256 ∧
    (writeStep b p s).2.1.nbytes = p.nbytes - 1 ∧
    (writeStep b p s).2.1.pagesize = p.pagesize ∧
    (writeStep b p s).2.1.blockflags = p.blockflags ∧
    countFlush (writeStep b p s).2.2.2 = 1 := by
  have hA : ¬ p.pagesize = 0 := by omega
  have hB : (p.pagecounter + 255) % 256 = 0 := by omega
  have hC : ¬ (p.nbytes + 65535) % 65536 = 0 := by omega
  refine ⟨?_, ?_, ?_, ?_, ?_, ?_, ?_⟩ <;>
    simp [writeStep, hst, hA, hB, hC, countFlush_append,
      countFlush_ispWriteFlash, countFlush_ispFlushPage] <;> omega

/-- Final step of a stream that ends exactly on a page boundary: the
counter flush fires, the counter is re-armed to the page size, and the
completion then sees a full page, so no forced flush is added even when
the last-of-multi-block flag is set. -/
theorem writeStep_done (b : Nat) (p : Prog) (s : IspState)
    (hst : p.state = PState.writeflash) (hps : 0 < p.pagesize)
    (hps2 : p.pagesize < 256) (hc : p.pagecounter = 1) (hn : p.nbytes = 1) :
    (writeStep b p s).1 = 1 ∧
    (writeStep b p s).2.1.state = PState.idle ∧
    (writeStep b p s).2.1.pagecounter = p.pagesize ∧
    (writeStep b p s).2.1.nbytes = 0 ∧
    (writeStep b p s).2.1.pagesize = p.pagesize ∧
    countFlush (writeStep b p s).2.2.2 = 1 := by
  have hA : ¬ p.pagesize = 0 := by omega
  have hB : (p.pagecounter + 255) % 256 = 0 := by omega
  have hC : (p.nbytes + 65535) % 65536 = 0 := by omega
  have hEq : p.pagesize % 256 = p.pagesize := Nat.mod_eq_of_lt hps2
  refine ⟨?_, ?_, ?_, ?_, ?_, ?_⟩ <;>
    simp [writeStep, hst, hA, hB, hC, hEq, countFlush_append,
      countFlush_ispWriteFlash, countFlush_ispFlushPage]

/-- Final step of a stream that ends with a partial page pending while
the last-of-multi-block flag is set: no counter flush fires, but the
completion path forces exactly one ispFlushPage. -/
theorem writeStep_lastPartial (b : Nat) (p : Prog) (s : IspState)
    (hst : p.state = PState.writeflash) (hps : 0 < p.pagesize)
    (hc1 : 1 < p.pagecounter) (hc2 : p.pagecounter < 256)
    (hn : p.nbytes = 1)
    (hlast : p.blockflags &&& PROG_BLOCKFLAG_LAST ≠ 0)
    (hne : p.pagecounter - 1 ≠ p.pagesize) :
    (writeStep b p s).1 = 1 ∧
    (writeStep b p s).2.1.state = PState.idle ∧
    (writeStep b p s).2.1.nbytes = 0 ∧
    countFlush (writeStep b p s).2.2.2 = 1 := by
  have hA : ¬ p.pagesize = 0 := by omega
  have hB : (p.pagecounter + 255) % 256 = p.pagecounter - 1 := by omega
  have hB0 : ¬ (p.pagecounter + 255) % 256 = 0 := by omega
  have hD : ¬ p.pagecounter - 1 = 0 := by omega
  have hC : (p.nbytes + 65535) % 65536 = 0 := by omega
  refine ⟨?_, ?_, ?_, ?_⟩ <;>
    simp [writeStep, hst, hA, hB, hB0, hC, hD, hlast, hne, countFlush_append,
      countFlush_ispWriteFlash, countFlush_ispFlushPage]

theorem writeLoop_nil (rv : Nat) (p : Prog) (s : IspState) (tr : List Ev) :
    writeLoop [] rv p s tr = ⟨rv, p, s, tr⟩ := rfl

theorem writeLoop_cons (b : Nat) (rest : List Nat) (rv : Nat) (p : Prog)
    (s : IspState) (tr : List Ev) :
    writeLoop (b :: rest) rv p s tr =
      writeLoop rest (max rv (writeStep b p s).1) (writeStep b p s).2.1
        (writeStep b p s).2.2.1 (tr ++ (writeStep b p s).2.2.2) := rfl

attribute [irreducible] writeStep writeLoop

theorem writeLoop_append (l1 l2 : List Nat) :
    ∀ (rv : Nat) (p : Prog) (s : IspState) (tr : List Ev),
    writeLoop (l1 ++ l2) rv p s tr =
      writeLoop l2 (writeLoop l1 rv p s tr).ret (writeLoop l1 rv p s tr).prog
        (writeLoop l1 rv p s tr).isp (writeLoop l1 rv p s tr).tr := by
  induction l1 with
  | nil => intro rv p s tr; simp [writeLoop_nil]
  | cons b rest ih =>
    intro rv p s tr
    rw [List.cons_append, writeLoop_cons, writeLoop_cons]
    exact ih _ _ _ _

/-- Running the write loop for fewer bytes than both the page counter
and the remaining count: no flush fires, no completion fires, the
counter and the count drop by the number of bytes. -/
theorem writeLoop_noflush (l : List Nat) :
    ∀ (rv : Nat) (p : Prog) (s : IspState) (tr : List Ev),
    p.state = PState.writeflash → 0 < p.pagesize →
    l.length < p.pagecounter → p.pagecounter < 256 →
    l.length < p.nbytes → p.nbytes < 65536 →
    (writeLoop l rv p s tr).ret = rv ∧
    (writeLoop l rv p s tr).prog.state = PState.writeflash ∧
    (writeLoop l rv p s tr).prog.pagecounter = p.pagecounter - l.length ∧
    (writeLoop l rv p s tr).prog.nbytes = p.nbytes - l.length ∧
    (writeLoop l rv p s tr).prog.pagesize = p.pagesize ∧
    (writeLoop l rv p s tr).prog.blockflags = p.blockflags ∧
    countFlush (writeLoop l rv p s tr).tr = countFlush tr := by
  induction l with
  | nil =>
    intro rv p s tr h1 h2 h3 h4 h5 h6
    simp [writeLoop_nil, h1]
  | cons b rest ih =>
    intro rv p s tr h1 h2 h3 h4 h5 h6
    simp only [List.length_cons] at h3 h5
    obtain ⟨e1, e2, e3, e4, e5, e6, e7⟩ :=
      writeStep_mid b p s h1 h2 (by omega) h4 (by omega) h6
    rw [writeLoop_cons]
    obtain ⟨f1, f2, f3, f4, f5, f6, f7⟩ :=
      ih (max rv (writeStep b p s).1) (writeStep b p s).2.1 (writeStep b p s).2.2.1
        (tr ++ (writeStep b p s).2.2.2)
        e2 (by rw [e5]; exact h2) (by rw [e3]; omega) (by rw [e3]; omega)
        (by rw [e4]; omega) (by rw [e4]; omega)
    refine ⟨?_, f2, ?_, ?_, ?_, ?_, ?_⟩
    · rw [f1, e1]; simp
    · rw [f3, e3]; simp only [List.length_cons]; omega
    · rw [f4, e4]; simp only [List.length_cons]; omega
    · rw [f5, e5]
    · rw [f6, e6]
    · rw [f7, countFlush_append, e7]
      omega

/-- Running the write loop for exactly page-counter bytes while more
bytes remain: exactly one flush fires (at the last of those bytes) and
the counter is re-armed to the page size. -/
theorem writeLoop_page (l : List Nat) :
    ∀ (rv : Nat) (p : Prog) (s : IspState) (tr : List Ev),
    p.state = PState.writeflash → 0 < p.pagesize →
    l.length = p.pagecounter → 0 < p.pagecounter → p.pagecounter < 256 →
    l.length < p.nbytes → p.nbytes < 65536 →
    (writeLoop l rv p s tr).ret = rv ∧
    (writeLoop l rv p s tr).prog.state = PState.writeflash ∧
    (writeLoop l rv p s tr).prog.pagecounter = p.pagesize % 256 ∧
    (writeLoop l rv p s tr).prog.nbytes = p.nbytes - l.length ∧
    (writeLoop l rv p s tr).prog.pagesize = p.pagesize ∧
    (writeLoop l rv p s tr).prog.blockflags = p.blockflags ∧
    countFlush (writeLoop l rv p s tr).tr = countFlush tr + 1 := by
  induction l with
  | nil =>
    intro rv p s tr h1 h2 h3 h4 h5 h6 h7
    simp only [List.length_nil] at h3
    omega
  | cons b rest ih =>
    intro rv p s tr h1 h2 h3 h4 h5 h6 h7
    simp only [List.length_cons] at h3 h6
    cases rest with
    | nil =>
      have hc : p.pagecounter = 1 := by simp only [List.length_nil] at h3; omega
      obtain ⟨e1, e2, e3, e4, e5, e6, e7⟩ :=
        writeStep_flush b p s h1 h2 hc (by omega) h7
      rw [writeLoop_cons, writeLoop_nil]
      refine ⟨?_, ?_, ?_, ?_, ?_, ?_, ?_⟩
      · show max rv (writeStep b p s).1 = rv
        rw [e1]; omega
      · exact e2
      · exact e3
      · show (writeStep b p s).2.1.nbytes = p.nbytes - 1
        exact e4
      · exact e5
      · exact e6
      · show countFlush (tr ++ (writeStep b p s).2.2.2) = countFlush tr + 1
        rw [countFlush_append, e7]
    | cons b2 rest2 =>
      have hgt : 1 < p.pagecounter := by
        simp only [List.length_cons] at h3; omega
      obtain ⟨e1, e2, e3, e4, e5, e6, e7⟩ :=
        writeStep_mid b p s h1 h2 hgt h5 (by omega) h7
      rw [writeLoop_cons]
      obtain ⟨f1, f2, f3, f4, f5, f6, f7⟩ :=
        ih (max rv (writeStep b p s).1) (writeStep b p s).2.1 (writeStep b p s).2.2.1
          (tr ++ (writeStep b p s).2.2.2)
          e2 (by rw [e5]; exact h2)
          (by rw [e3]; simp only [List.length_cons] at h3 ⊢; omega)
          (by rw [e3]; omega) (by rw [e3]; omega)
          (by rw [e4]; simp only [List.length_cons] at h6 ⊢; omega)
          (by rw [e4]; omega)
      refine ⟨?_, f2, ?_, ?_, ?_, ?_, ?_⟩
      · rw [f1, e1]; simp
      · rw [f3, e5]
      · rw [f4, e4]; simp only [List.length_cons]; omega
      · rw [f5, e5]
      · rw [f6, e6]
      · rw [f7, countFlush_append, e7]

/-- Running the write loop for exactly page-counter bytes when those are
also exactly the remaining bytes: one counter flush fires at the last
byte, the counter is re-armed to the full page size, completion reverts
to idle and reports 1, and no forced flush is added. -/
theorem writeLoop_pageDone (l : List Nat) :
    ∀ (rv : Nat) (p : Prog) (s : IspState) (tr : List Ev),
    p.state = PState.writeflash → 0 < p.pagesize → p.pagesize < 256 →
    l.length = p.pagecounter → 0 < p.pagecounter → p.pagecounter < 256 →
    p.nbytes = l.length →
    (writeLoop l rv p s tr).ret = max rv 1 ∧
    (writeLoop l rv p s tr).prog.state = PState.idle ∧
    (writeLoop l rv p s tr).prog.pagecounter = p.pagesize ∧
    (writeLoop l rv p s tr).prog.nbytes = 0 ∧
    countFlush (writeLoop l rv p s tr).tr = countFlush tr + 1 := by
  induction l with
  | nil =>
    intro rv p s tr h1 h2 h3 h4 h5 h6 h7
    simp only [List.length_nil] at h4
    omega
  | cons b rest ih =>
    intro rv p s tr h1 h2 h3 h4 h5 h6 h7
    simp only [List.length_cons] at h4 h7
    cases rest with
    | nil =>
      have hc : p.pagecounter = 1 := by simp only [List.length_nil] at h4; omega
      have hn : p.nbytes = 1 := by simp only [List.length_nil] at h7; omega
      obtain ⟨e1, e2, e3, e4, e5, e6⟩ := writeStep_done b p s h1 h2 h3 hc hn
      rw [writeLoop_cons, writeLoop_nil]
      refine ⟨?_, ?_, ?_, ?_, ?_⟩
      · show max rv (writeStep b p s).1 = max rv 1
        rw [e1]
      · exact e2
      · exact e3
      · exact e4
      · show countFlush (tr ++ (writeStep b p s).2.2.2) = countFlush tr + 1
        rw [countFlush_append, e6]
    | cons b2 rest2 =>
      have hgt : 1 < p.pagecounter := by
        simp only [List.length_cons] at h4; omega
      obtain ⟨e1, e2, e3, e4, e5, e6, e7⟩ :=
        writeStep_mid b p s h1 h2 hgt h6 (by omega) (by omega)
      rw [writeLoop_cons]
      obtain ⟨f1, f2, f3, f4, f5⟩ :=
        ih (max rv (writeStep b p s).1) (writeStep b p s).2.1 (writeStep b p s).2.2.1
          (tr ++ (writeStep b p s).2.2.2)
          e2 (by rw [e5]; exact h2) (by rw [e5]; exact h3)
          (by rw [e3]; simp only [List.length_cons] at h4 ⊢; omega)
          (by rw [e3]; omega) (by rw [e3]; omega)
          (by rw [e4]; omega)
      refine ⟨?_, f2, ?_, f4, ?_⟩
      · rw [f1, e1]; simp
      · rw [f3, e5]
      · rw [f5, countFlush_append, e7]

/-! ### Claim C3 -/

/-- Claim C3: streaming 2·P bytes through the flash write data phase
with page size P, a freshly armed page counter and no last-of-multi-block
flag produces exactly 2 page commits (ispFlushPage calls), each fired by
the page counter reaching zero, with the counter re-armed to P after
each commit (it ends at P); the transfer completes (flag 1, state idle,
remaining count 0), and the first P bytes alone produce exactly 1
commit, locating the commits at the two page boundaries. -/
theorem writeFlash_page_autoflush (p : Prog) (s : IspState) (l : List Nat) (P : Nat)
    (hst : p.state = PState.writeflash)
    (hP1 : 0 < P) (hP2 : P < 256)
    (hps : p.pagesize = P) (hpc : p.pagecounter = P)
    (hn : p.nbytes = 2 * P)
    (hflags : p.blockflags &&& PROG_BLOCKFLAG_LAST = 0)
    (hl : l.length = 2 * P) :
    countFlush (usbFunctionWrite p s l).tr = 2 ∧
    (usbFunctionWrite p s l).ret = 1 ∧
    (usbFunctionWrite p s l).prog.state = PState.idle ∧
    (usbFunctionWrite p s l).prog.pagecounter = P ∧
    (usbFunctionWrite p s l).prog.nbytes = 0 ∧
    countFlush (writeLoop (l.take P) 0 p s []).tr = 1 := by
  have husb : usbFunctionWrite p s l = writeLoop l 0 p s [] := by
    simp [usbFunctionWrite, hst]
  have hsplit : l.take P ++ l.drop P = l := List.take_append_drop P l
  have hlen1 : (l.take P).length = P := by rw [List.length_take]; omega
  have hlen2 : (l.drop P).length = P := by rw [List.length_drop]; omega
  obtain ⟨g1, g2, g3, g4, g5, g6, g7⟩ :=
    writeLoop_page (l.take P) 0 p s [] hst (by omega)
      (by rw [hlen1, hpc]) (by omega) (by omega)
      (by rw [hlen1, hn]; omega) (by omega)
  have g7z : countFlush (writeLoop (l.take P) 0 p s []).tr = 1 := by
    rw [g7]; rfl
  obtain ⟨k1, k2, k3, k4, k5⟩ :=
    writeLoop_pageDone (l.drop P) (writeLoop (l.take P) 0 p s []).ret
      (writeLoop (l.take P) 0 p s []).prog (writeLoop (l.take P) 0 p s []).isp
      (writeLoop (l.take P) 0 p s []).tr
      g2 (by rw [g5]; omega) (by rw [g5]; omega)
      (by rw [hlen2, g3, hps, Nat.mod_eq_of_lt hP2])
      (by rw [g3, hps, Nat.mod_eq_of_lt hP2]; omega)
      (by rw [g3]; omega)
      (by rw [g4, hlen1, hlen2, hn]; omega)
  refine ⟨?_, ?_, ?_, ?_, ?_, g7z⟩
  · rw [husb, ← hsplit, writeLoop_append, k5, g7z]
  · rw [husb, ← hsplit, writeLoop_append, k1, g1]
    simp
  · rw [husb, ← hsplit, writeLoop_append]; exact k2
  · rw [husb, ← hsplit, writeLoop_append, k3, g5, hps]
  · rw [husb, ← hsplit, writeLoop_append]; exact k4

/-- Witness for C3: page size 1, two bytes streamed, two commits. -/
theorem writeFlash_page_autoflush_witness :
    countFlush (usbFunctionWrite ⟨PState.writeflash, 0, 0, 0, 2, 1, 0, 1⟩
      ⟨0, 0, 0, 0, 0⟩ [170, 187]).tr = 2 ∧
    (usbFunctionWrite ⟨PState.writeflash, 0, 0, 0, 2, 1, 0, 1⟩
      ⟨0, 0, 0, 0, 0⟩ [170, 187]).ret = 1 ∧
    (usbFunctionWrite ⟨PState.writeflash, 0, 0, 0, 2, 1, 0, 1⟩
      ⟨0, 0, 0, 0, 0⟩ [170, 187]).prog.state = PState.idle ∧
    (usbFunctionWrite ⟨PState.writeflash, 0, 0, 0, 2, 1, 0, 1⟩
      ⟨0, 0, 0, 0, 0⟩ [170, 187]).prog.pagecounter = 1 ∧
    (usbFunctionWrite ⟨PState.writeflash, 0, 0, 0, 2, 1, 0, 1⟩
      ⟨0, 0, 0, 0, 0⟩ [170, 187]).prog.nbytes = 0 := by
  have h := writeFlash_page_autoflush ⟨PState.writeflash, 0, 0, 0, 2, 1, 0, 1⟩
    ⟨0, 0, 0, 0, 0⟩ [170, 187] 1 rfl (by decide) (by decide) rfl rfl (by decide)
    (by decide) (by decide)
  exact ⟨h.1, h.2.1, h.2.2.1, h.2.2.2.1, h.2.2.2.2.1⟩

/-! ### Claim C4 -/

/-- Claim C4: the remaining count drops by one per consumed byte (for
every proper prefix of the stream, remaining = initial minus prefix
length); when it reaches 0 the state reverts to idle and the call
returns the completion flag 1; and a stream of P - 1 bytes marked
last-of-multi-block (page counter armed at P, so the counter never
reaches 0 on its own) triggers exactly one ispFlushPage — one more than
the zero the counter alone would produce. -/
theorem writeFlash_partial_page_forced_flush (p : Prog) (s : IspState) (l : List Nat)
    (P : Nat)
    (hst : p.state = PState.writeflash)
    (hP1 : 2 ≤ P) (hP2 : P < 256)
    (hps : p.pagesize = P) (hpc : p.pagecounter = P)
    (hn : p.nbytes = P - 1)
    (hlast : p.blockflags &&& PROG_BLOCKFLAG_LAST ≠ 0)
    (hl : l.length = P - 1) :
    countFlush (usbFunctionWrite p s l).tr = 1 ∧
    (usbFunctionWrite p s l).ret = 1 ∧
    (usbFunctionWrite p s l).prog.state = PState.idle ∧
    (usbFunctionWrite p s l).prog.nbytes = 0 ∧
    (∀ k, k < P - 1 →
      (writeLoop (l.take k) 0 p s []).prog.nbytes = p.nbytes - k) := by
  have husb : usbFunctionWrite p s l = writeLoop l 0 p s [] := by
    simp [usbFunctionWrite, hst]
  have hlen1 : (l.take (P - 2)).length = P - 2 := by rw [List.length_take]; omega
  have hlen2 : (l.drop (P - 2)).length = 1 := by rw [List.length_drop]; omega
  obtain ⟨b, hb⟩ := List.length_eq_one.mp hlen2
  have hsplit : l.take (P - 2) ++ [b] = l := by
    rw [← hb]; exact List.take_append_drop _ _
  obtain ⟨g1, g2, g3, g4, g5, g6, g7⟩ :=
    writeLoop_noflush (l.take (P - 2)) 0 p s [] hst (by omega)
      (by rw [hlen1, hpc]; omega) (by omega)
      (by rw [hlen1, hn]; omega) (by omega)
  have g7z : countFlush (writeLoop (l.take (P - 2)) 0 p s []).tr = 0 := by
    rw [g7]; rfl
  obtain ⟨m1, m2, m3, m4⟩ :=
    writeStep_lastPartial b (writeLoop (l.take (P - 2)) 0 p s []).prog
      (writeLoop (l.take (P - 2)) 0 p s []).isp
      g2 (by rw [g5]; omega)
      (by rw [g3, hlen1, hpc]; omega) (by rw [g3]; omega)
      (by rw [g4, hlen1, hn]; omega)
      (by rw [g6]; exact hlast)
      (by rw [g3, g5, hlen1, hpc, hps]; omega)
  refine ⟨?_, ?_, ?_, ?_, ?_⟩
  · rw [husb, ← hsplit, writeLoop_append, writeLoop_cons, writeLoop_nil]
    show countFlush ((writeLoop (l.take (P - 2)) 0 p s []).tr ++
      (writeStep b (writeLoop (l.take (P - 2)) 0 p s []).prog
        (writeLoop (l.take (P - 2)) 0 p s []).isp).2.2.2) = 1
    rw [countFlush_append, g7z, m4]
  · rw [husb, ← hsplit, writeLoop_append, writeLoop_cons, writeLoop_nil]
    show max (writeLoop (l.take (P - 2)) 0 p s []).ret
      (writeStep b (writeLoop (l.take (P - 2)) 0 p s []).prog
        (writeLoop (l.take (P - 2)) 0 p s []).isp).1 = 1
    rw [g1, m1]
    simp
  · rw [husb, ← hsplit, writeLoop_append, writeLoop_cons, writeLoop_nil]
    exact m2
  · rw [husb, ← hsplit, writeLoop_append, writeLoop_cons, writeLoop_nil]
    exact m3
  · intro k hk
    have hlenk : (l.take k).length = k := by rw [List.length_take]; omega
    obtain ⟨q1, q2, q3, q4, q5, q6, q7⟩ :=
      writeLoop_noflush (l.take k) 0 p s [] hst (by omega)
        (by rw [hlenk, hpc]; omega) (by omega)
        (by rw [hlenk, hn]; omega) (by omega)
    rw [q4, hlenk]

/-- Witness for C4: page size 2, one byte streamed with the
last-of-multi-block flag: exactly one forced flush, completion
reported. -/
theorem writeFlash_partial_page_forced_flush_witness :
    countFlush (usbFunctionWrite ⟨PState.writeflash, 0, 0, 0, 1, 2, 2, 2⟩
      ⟨0, 0, 0, 0, 0⟩ [85]).tr = 1 ∧
    (usbFunctionWrite ⟨PState.writeflash, 0, 0, 0, 1, 2, 2, 2⟩
      ⟨0, 0, 0, 0, 0⟩ [85]).ret = 1 ∧
    (usbFunctionWrite ⟨PState.writeflash, 0, 0, 0, 1, 2, 2, 2⟩
      ⟨0, 0, 0, 0, 0⟩ [85]).prog.state = PState.idle ∧
    (usbFunctionWrite ⟨PState.writeflash, 0, 0, 0, 1, 2, 2, 2⟩
      ⟨0, 0, 0, 0, 0⟩ [85]).prog.nbytes = 0 := by
  have h := writeFlash_partial_page_forced_flush ⟨PState.writeflash, 0, 0, 0, 1, 2, 2, 2⟩
    ⟨0, 0, 0, 0, 0⟩ [85] 2 rfl (by decide) (by decide) rfl rfl (by decide)
    (by decide) (by decide)
  exact ⟨h.1, h.2.1, h.2.2.1, h.2.2.2.1⟩
